import Mathlib

/-!
Verification of the Aquarelle camera-to-watercolor pipeline.

This file gives a shallow embedding of the three source modules of the
repository — the Gemini transformation service (`services/geminiService.ts`),
the application controller (`App.tsx`) and the camera capture surface
(the `Camera` component) — and proves or refutes the specification claims
about them.
-/

namespace Aquarelle

/-! ## Transformation service (`services/geminiService.ts`) -/

/-- One content part of the remote model response (`response.candidates[0]
.content.parts` in `transformToWatercolor`): either a text-only part or a
part carrying inline image data. -/
inductive Part where
  | text (s : String)
  | inlineImage (data : String)
deriving DecidableEq, Repr

/-- Outcome of the remote `generateContent` call: a list of content parts on
success, or a failure whose reason becomes the caught error's message. -/
inductive RemoteResult where
  | ok (parts : List Part)
  | failure (reason : String)
deriving DecidableEq, Repr

/-- The scan loop at geminiService.ts lines 68-74: walk the parts in order and
return the inline data of the first part that carries some, ignoring
text-only parts. -/
def firstInlineData : List Part → Option String
  | [] => none
  | Part.text _ :: rest => firstInlineData rest
  | Part.inlineImage d :: _ => some d

/-- Result of decoding the input data URL in `resizeImage` (the `Image`
element's load): either the decoded pixel dimensions, or a decode failure. -/
inductive DecodeResult where
  | ok (w h : Nat)
  | failed
deriving DecidableEq, Repr

/-- Outcome of a JavaScript promise as observed by an awaiting caller:
resolved with a value, rejected with an error message, or never settled. -/
inductive PromiseOutcome (α : Type) where
  | resolved (a : α)
  | rejected (msg : String)
  | pending
deriving DecidableEq, Repr

deriving instance DecidableEq for Except

/-- Does the promise outcome propagate an error to the caller? -/
def settledWithError {α : Type} : PromiseOutcome α → Bool
  | PromiseOutcome.rejected _ => true
  | _ => false

/-- The dimension computation of `resizeImage` (geminiService.ts lines 15-31).
The source computes `height *= maxDimension / width` in floating point and
assigns the result to `canvas.height`, whose IDL setter truncates to an
integer; this is modelled as exact rational arithmetic followed by floor,
i.e. natural-number division. -/
def resizeDims (w h maxDimension : Nat) : Nat × Nat :=
  if h < w then
    if maxDimension < w then (maxDimension, h * maxDimension / w) else (w, h)
  else
    if maxDimension < h then (w * maxDimension / h, maxDimension) else (w, h)

/-- `resizeImage` (geminiService.ts lines 9-37). The promise resolves, with the
output canvas dimensions, only from the image's `onload` handler; no `onerror`
handler and no `reject` are ever installed, so on a decode failure the promise
never settles. -/
def resizeImage (decode : DecodeResult) (maxDimension : Nat) :
    PromiseOutcome (Nat × Nat) :=
  match decode with
  | DecodeResult.ok w h => PromiseOutcome.resolved (resizeDims w h maxDimension)
  | DecodeResult.failed => PromiseOutcome.pending

/-- `!API_KEY` at geminiService.ts line 40: the credential is missing when the
environment variable is undefined or the empty string (JavaScript falsiness
for strings). -/
def apiKeyMissing : Option String → Bool
  | none => true
  | some s => s.isEmpty

/-- Error message thrown when the credential is absent (line 41). -/
def configErrorMsg : String :=
  "Gemini API Key is missing. Please configure it in the Secrets panel."

/-- Error message thrown inside the try block when no part carries inline
image data (line 77). -/
def emptyResultMsg : String :=
  "The artist encountered an error. Please try another shot."

/-- Error message thrown by the catch block on a safety rejection (line 84). -/
def safetyMsg : String :=
  "This image couldn\x27t be processed due to safety guidelines."

/-- Error message thrown by the catch block on any other failure (line 86). -/
def networkErrorMsg : String :=
  "Network error. Please check your connection and try again."

/-- `needle` occurs at the very start of `hay` (character lists). -/
def isStartOf : List Char → List Char → Bool
  | [], _ => true
  | _ :: _, [] => false
  | c :: cs, d :: ds => c == d && isStartOf cs ds

/-- `needle` occurs somewhere inside `hay` (character lists). -/
def occursIn (needle : List Char) : List Char → Bool
  | [] => isStartOf needle []
  | c :: cs => isStartOf needle (c :: cs) || occursIn needle cs

/-- The case-sensitive substring test `error.message?.includes("Safety")` at
geminiService.ts line 83. -/
def containsSafety (s : String) : Bool :=
  occursIn "Safety".data s.data

/-- The body of the try block at geminiService.ts lines 50-80: the remote call
(whose failure reason becomes the thrown message), the scan for the first
inline-data part, and the empty-result throw. `Except.error` is a throw that
the surrounding catch block will intercept. -/
def tryBlock (remote : RemoteResult) : Except String String :=
  match remote with
  | RemoteResult.failure reason => Except.error reason
  | RemoteResult.ok parts =>
    match firstInlineData parts with
    | some d => Except.ok ("data:image/png;base64," ++ d)
    | none => Except.error emptyResultMsg

/-- The catch block at geminiService.ts lines 81-87: route the caught message
through the safety substring test. -/
def catchBlock (msg : String) : String :=
  if containsSafety msg then safetyMsg else networkErrorMsg

/-- Observable side effects of `transformToWatercolor`, in order: running the
normalization step (`resizeImage`) and issuing the remote request. -/
inductive Event where
  | normalize
  | remoteCall
deriving DecidableEq, Repr

/-- `transformToWatercolor` (geminiService.ts lines 39-88), together with the
trace of observable side effects. The key check happens first and throws
outside the try block; then the input is normalized (if its decode never
settles, neither does this call); then the remote call is made and every
throw from inside the try block — the remote failure and the empty-result
throw alike — is rewritten by the catch block. -/
def transformToWatercolor (apiKey : Option String) (decode : DecodeResult)
    (remote : RemoteResult) :
    PromiseOutcome (Except String String) × List Event :=
  if apiKeyMissing apiKey then
    (PromiseOutcome.resolved (Except.error configErrorMsg), [])
  else
    match resizeImage decode 1024 with
    | PromiseOutcome.pending => (PromiseOutcome.pending, [Event.normalize])
    | _ =>
      match tryBlock remote with
      | Except.ok url =>
        (PromiseOutcome.resolved (Except.ok url),
          [Event.normalize, Event.remoteCall])
      | Except.error m =>
        (PromiseOutcome.resolved (Except.error (catchBlock m)),
          [Event.normalize, Event.remoteCall])

/-! ## Capture surface (the `Camera` component) -/

/-- Session state of the `Camera` component across renders: `stream` is the
committed React state (the component's current handle), `live` is the set of
hardware sessions actually held open on the device, `nextId` allocates fresh
session identities, and `cleanupCapture` is the `stream` value captured by
the `stopStream` closure currently registered as the effect's cleanup.
`stopStream` is a `useCallback` with deps `[stream]`, so a fresh closure is
created whenever `stream` changes — but the effect (deps `[isActive,
facingMode]`) keeps the cleanup returned by the render at which it last ran,
so the registered cleanup's captured value goes stale as soon as the
acquisition inside that run commits a new stream. -/
structure CamState where
  stream : Option Nat
  live : List Nat
  nextId : Nat
  cleanupCapture : Option Nat
deriving DecidableEq, Repr

/-- The body of `stopStream` (Camera component lines 19-24) as executed by a
closure whose captured `stream` value is `captured`: if the captured value is
a session, stop its tracks — releasing the hardware session; stopping an
already-released session does nothing — and commit `setStream(null)`; if the
captured value is null, do nothing at all. -/
def stopStream (captured : Option Nat) (s : CamState) : CamState :=
  match captured with
  | some t => { s with stream := none, live := s.live.erase t }
  | none => s

/-- The acquisition half of `startCamera` (lines 30-52): on success hold the
fresh session as the new stream; on failure (permission denied, no device,
or other) show an error and hold nothing. -/
def acquire (ok : Bool) (s : CamState) : CamState :=
  if ok then
    { s with stream := some s.nextId, live := s.nextId :: s.live,
             nextId := s.nextId + 1 }
  else s

/-- `startCamera` (lines 26-72) as invoked through a current-render closure
(the effect body or the retry button), which sees the committed stream:
stop it first, then acquire. -/
def startCamera (ok : Bool) (s : CamState) : CamState :=
  acquire ok (stopStream s.stream s)

/-- The lifecycle operations driving the session effect (lines 74-81) and the
retry button: activation (mount, or `isActive` becoming true), deactivation
(`isActive` false), a facing-mode switch (re-runs the effect), unmount (runs
only the registered cleanup), and the error screen's retry. Each acquisition
may succeed or fail. -/
inductive CamOp where
  | activate (ok : Bool)
  | deactivate
  | switchFacing (ok : Bool)
  | unmount
  | retry (ok : Bool)
deriving DecidableEq, Repr

/-- Effect of one lifecycle operation, with React's closure semantics. When
the effect re-runs (activation, deactivation, facing switch), React first
invokes the previously registered cleanup — whose captured stream is stale —
and then the effect body, whose closures see the committed stream of the
triggering render (`body` below); the `stopStream` the body returns is
registered as the next cleanup and captures that same `body` value, not the
stream the run goes on to acquire. At unmount only the registered (stale)
cleanup runs, and the component's state dies with it. `retry` calls the
current render's `startCamera` without re-running the effect, so the
registered cleanup is unchanged. -/
def camStep (s : CamState) : CamOp → CamState
  | CamOp.activate ok =>
    let body := s.stream
    let s1 := stopStream s.cleanupCapture s
    let s2 := acquire ok (stopStream body s1)
    { s2 with cleanupCapture := body }
  | CamOp.deactivate =>
    let body := s.stream
    let s1 := stopStream s.cleanupCapture s
    let s2 := stopStream body s1
    { s2 with cleanupCapture := body }
  | CamOp.switchFacing ok =>
    let body := s.stream
    let s1 := stopStream s.cleanupCapture s
    let s2 := acquire ok (stopStream body s1)
    { s2 with cleanupCapture := body }
  | CamOp.unmount =>
    let s1 := stopStream s.cleanupCapture s
    { s1 with stream := none, cleanupCapture := none }
  | CamOp.retry ok => startCamera ok s

/-- Run a sequence of lifecycle operations. -/
def runCamOps (ops : List CamOp) (s : CamState) : CamState :=
  ops.foldl camStep s

/-- Initial camera state: no handle, no live session, no cleanup
registered. -/
def initCam : CamState := ⟨none, [], 0, none⟩

/-- The facing mode of the active camera (`'user' | 'environment'`). -/
inductive FacingMode where
  | user
  | environment
deriving DecidableEq, Repr

/-- The `<video>` element as seen by `capturePhoto`: its native (intrinsic)
frame dimensions `videoWidth`/`videoHeight`, the displayed (CSS-scaled)
dimensions, and the raw sensor frame it is playing. -/
structure Video where
  videoWidth : Nat
  videoHeight : Nat
  clientWidth : Nat
  clientHeight : Nat
  frame : Nat → Nat → Nat

/-- An encoded still image: dimensions plus pixel contents. -/
structure CapturedImage where
  width : Nat
  height : Nat
  pixel : Nat → Nat → Nat

/-- Horizontal mirroring of an image. -/
def mirrorX (img : CapturedImage) : CapturedImage :=
  { img with pixel := fun x y => img.pixel (img.width - 1 - x) y }

/-- The raw sensor frame as an image at the video's native dimensions. -/
def rawFrameImage (v : Video) : CapturedImage :=
  { width := v.videoWidth, height := v.videoHeight, pixel := v.frame }

/-- `capturePhoto` (Camera component lines 96-128): the canvas is sized to the
video's native `videoWidth`/`videoHeight` (never the displayed dimensions),
and when the facing mode is front-facing (`'user'`) the context is translated
by the width and x-flipped before drawing, so canvas pixel `(x, y)` receives
sensor pixel `(width - 1 - x, y)`; otherwise the frame is drawn as is. -/
def capturePhoto (facingMode : FacingMode) (v : Video) : CapturedImage :=
  let width := v.videoWidth
  let height := v.videoHeight
  { width := width, height := height,
    pixel := fun x y =>
      if facingMode = FacingMode.user then v.frame (width - 1 - x) y
      else v.frame x y }

/-! ## Application controller (`App.tsx`) -/

/-- `AppState` (App.tsx line 22): `'idle' | 'camera' | 'processing' |
'preview'`. -/
inductive AppState where
  | idle
  | camera
  | processing
  | preview
deriving DecidableEq, Repr

/-- The controller's React state (App.tsx lines 25-29). -/
structure AppModel where
  state : AppState
  originalImage : Option String
  transformedImage : Option String
  error : Option String
  showComparison : Bool
deriving DecidableEq, Repr

/-- Initial state (App.tsx lines 25-29): idle, no images, no error. -/
def initModel : AppModel := ⟨AppState.idle, none, none, none, false⟩

/-- The fallback error text of App.tsx line 48, used when the failure's
message is falsy. -/
def fallbackErrorMsg : String := "Failed to transform image. Please try again."

/-- The user events and transform resolutions the controller reacts to:
the Open Studio button (idle), the back chevron (camera), a capture
(`handleCapture`, camera), the resolution of the in-flight transform
(processing), the reset button (preview) and the comparison toggle
(preview). -/
inductive AppEvent where
  | openStudio
  | back
  | capture (img : String)
  | transformSuccess
  | transformFailure (msg : String)
  | reset
  | toggleComparison
deriving DecidableEq, Repr

/-- One controller step (App.tsx lines 31-58 and the onClick handlers). Each
event is enabled only in the state whose UI offers it — the processing screen
offers no interaction, so the only event there is the in-flight transform's
resolution, which applies `watercolor` (the remote transformation, abstract
here) to the image stored by `handleCapture`. `none` means the event cannot
occur in that state. -/
def appStep (watercolor : String → String) (s : AppModel) :
    AppEvent → Option AppModel
  | AppEvent.openStudio =>
    if s.state = AppState.idle then some { s with state := AppState.camera }
    else none
  | AppEvent.back =>
    if s.state = AppState.camera then some { s with state := AppState.idle }
    else none
  | AppEvent.capture img =>
    if s.state = AppState.camera then
      some { s with originalImage := some img, state := AppState.processing,
                    error := none }
    else none
  | AppEvent.transformSuccess =>
    match s.state, s.originalImage with
    | AppState.processing, some img =>
      some { s with transformedImage := some (watercolor img),
                    state := AppState.preview }
    | _, _ => none
  | AppEvent.transformFailure msg =>
    if s.state = AppState.processing then
      some { s with
              error := some (if msg.isEmpty then fallbackErrorMsg else msg),
              state := AppState.camera }
    else none
  | AppEvent.reset =>
    if s.state = AppState.preview then
      some { s with originalImage := none, transformedImage := none,
                    state := AppState.camera, showComparison := false }
    else none
  | AppEvent.toggleComparison =>
    if s.state = AppState.preview then
      some { s with showComparison := !s.showComparison }
    else none

/-- The states the controller can actually be in: everything reachable from
the initial state by enabled events. -/
inductive Reachable (watercolor : String → String) : AppModel → Prop where
  | init : Reachable watercolor initModel
  | step {s s2 : AppModel} {e : AppEvent} (hr : Reachable watercolor s)
      (hs : appStep watercolor s e = some s2) : Reachable watercolor s2

/-- Controller invariant: while processing, the error has just been cleared;
a transformed image exists only in the preview state; and in the preview
state the error is clear and the transformed image is the transformation of
the held original. -/
def AppInv (watercolor : String → String) (s : AppModel) : Prop :=
  (s.state = AppState.processing → s.error = none) ∧
  (s.state ≠ AppState.preview → s.transformedImage = none) ∧
  (s.state = AppState.preview →
    s.error = none ∧ s.originalImage ≠ none ∧
    s.transformedImage = Option.map watercolor s.originalImage)

/-! ## Helper lemmas -/

theorem appStep_inv {watercolor : String → String} {s s2 : AppModel}
    {e : AppEvent} (hinv : AppInv watercolor s)
    (hstep : appStep watercolor s e = some s2) : AppInv watercolor s2 := by
  obtain ⟨h1, h2, h3⟩ := hinv
  cases e with
  | openStudio =>
    simp only [appStep] at hstep
    split at hstep
    · injection hstep with h
      subst h
      refine ⟨?_, ?_, ?_⟩ <;> intro hc <;> simp_all
    · exact absurd hstep (by simp)
  | back =>
    simp only [appStep] at hstep
    split at hstep
    · injection hstep with h
      subst h
      refine ⟨?_, ?_, ?_⟩ <;> intro hc <;> simp_all
    · exact absurd hstep (by simp)
  | capture img =>
    simp only [appStep] at hstep
    split at hstep
    · injection hstep with h
      subst h
      refine ⟨?_, ?_, ?_⟩ <;> intro hc <;> simp_all
    · exact absurd hstep (by simp)
  | transformSuccess =>
    simp only [appStep] at hstep
    split at hstep
    · injection hstep with h
      subst h
      refine ⟨?_, ?_, ?_⟩ <;> intro hc <;> simp_all
    · exact absurd hstep (by simp)
  | transformFailure msg =>
    simp only [appStep] at hstep
    split at hstep
    · injection hstep with h
      subst h
      refine ⟨?_, ?_, ?_⟩ <;> intro hc <;> simp_all
    · exact absurd hstep (by simp)
  | reset =>
    simp only [appStep] at hstep
    split at hstep
    · injection hstep with h
      subst h
      refine ⟨?_, ?_, ?_⟩ <;> intro hc <;> simp_all
    · exact absurd hstep (by simp)
  | toggleComparison =>
    simp only [appStep] at hstep
    split at hstep
    · injection hstep with h
      subst h
      refine ⟨?_, ?_, ?_⟩ <;> intro hc <;> simp_all
    · exact absurd hstep (by simp)

theorem reachable_inv {watercolor : String → String} {s : AppModel}
    (h : Reachable watercolor s) : AppInv watercolor s := by
  induction h with
  | init =>
    refine ⟨?_, ?_, ?_⟩ <;> intro hc <;> simp_all [initModel]
  | step hr hs ih => exact appStep_inv ih hs

/-! ## Claim theorems -/

/-- Claim C1 (code bug, evaluated at the failing input): with a configured
key, a response whose parts are [text, text] does not surface the
empty-result message — the empty-result error thrown inside the try block is
caught by the function's own catch block and replaced, so the caller sees the
generic network-error message, which differs from the empty-result message.
A [text, inlineImage] response does return that image, ignoring the text
part. -/
theorem empty_result_masked :
    (transformToWatercolor (some "k") (DecodeResult.ok 8 6)
      (RemoteResult.ok [Part.text "a", Part.text "b"])).1 =
      PromiseOutcome.resolved (Except.error networkErrorMsg) ∧
    networkErrorMsg ≠ emptyResultMsg ∧
    (transformToWatercolor (some "k") (DecodeResult.ok 8 6)
      (RemoteResult.ok [Part.text "a", Part.inlineImage "IMG"])).1 =
      PromiseOutcome.resolved
        (Except.ok ("data:image/png;base64," ++ "IMG")) := by
  refine ⟨by decide, by decide, by decide⟩

/-- Claim C2: whenever the credential is missing, `transformToWatercolor`
fails with the configuration error message and its event trace is empty: the
normalization step never runs and no remote call is issued. -/
theorem missing_key_fails_before_any_call (apiKey : Option String)
    (decode : DecodeResult) (remote : RemoteResult)
    (h : apiKeyMissing apiKey = true) :
    transformToWatercolor apiKey decode remote =
      (PromiseOutcome.resolved (Except.error configErrorMsg), []) := by
  simp [transformToWatercolor, h]

/-- Witness for C2: with no key configured, the call fails with the
configuration error and an empty trace even though the input's decode would
fail and the remote call would fail. -/
theorem missing_key_fails_before_any_call_witness :
    transformToWatercolor none DecodeResult.failed
        (RemoteResult.failure "boom") =
      (PromiseOutcome.resolved (Except.error configErrorMsg), []) :=
  missing_key_fails_before_any_call none DecodeResult.failed
    (RemoteResult.failure "boom") (by decide)

/-- Claim C3: for a failing remote call (key configured, input decodable),
the caller-visible message is exactly the safety message when the failure
reason contains the substring "Safety", and exactly the network-error
message otherwise. -/
theorem remote_failure_user_message (apiKey : Option String) (w h : Nat)
    (reason : String) (hkey : apiKeyMissing apiKey = false) :
    (transformToWatercolor apiKey (DecodeResult.ok w h)
        (RemoteResult.failure reason)).1 =
      PromiseOutcome.resolved (Except.error
        (if containsSafety reason then safetyMsg else networkErrorMsg)) := by
  simp [transformToWatercolor, hkey, resizeImage, tryBlock, catchBlock]

/-- Witness for C3: a failure whose reason contains "Safety" surfaces the
safety message; one whose reason does not surfaces the network message. -/
theorem remote_failure_user_message_witness :
    (transformToWatercolor (some "k") (DecodeResult.ok 4 3)
        (RemoteResult.failure "Safety block")).1 =
      PromiseOutcome.resolved (Except.error safetyMsg) ∧
    (transformToWatercolor (some "k") (DecodeResult.ok 4 3)
        (RemoteResult.failure "timeout")).1 =
      PromiseOutcome.resolved (Except.error networkErrorMsg) := by
  constructor
  · rw [remote_failure_user_message (some "k") 4 3 "Safety block" (by decide)]
    decide
  · rw [remote_failure_user_message (some "k") 4 3 "timeout" (by decide)]
    decide

/-- Claim C10 counterexample: on a decode failure, `resizeImage` does not
terminate by propagating an error — no `onerror` handler or `reject` exists,
so the promise never settles, and in particular no error of any kind reaches
the caller. -/
theorem decode_failure_never_propagates :
    resizeImage DecodeResult.failed 1024 = PromiseOutcome.pending ∧
    settledWithError (resizeImage DecodeResult.failed 1024) = false :=
  ⟨rfl, rfl⟩

/-- Claim C10 amended: on a decode failure the normalizer never settles (it
hangs rather than propagating a decode error), the normalizer propagates no
error on any input, and a caller of `transformToWatercolor` with an
undecodable image suspends forever as well. -/
theorem resize_no_error_path (decode : DecodeResult) (bound : Nat)
    (remote : RemoteResult) :
    resizeImage DecodeResult.failed bound = PromiseOutcome.pending ∧
    settledWithError (resizeImage decode bound) = false ∧
    (transformToWatercolor (some "k") DecodeResult.failed remote).1 =
      PromiseOutcome.pending := by
  refine ⟨rfl, ?_, rfl⟩
  cases decode <;> rfl

/-- Claim C4: the normalizer's output dimensions never exceed the bound on
either side; the aspect ratio is preserved within rounding tolerance, stated
by cross-multiplication (the two cross products differ by at most max w h,
the error of one floor-rounding step); and an image already within the bound
is returned unchanged (no upscaling). -/
theorem resize_bounds_aspect_no_upscale (w h bound : Nat) :
    max (resizeDims w h bound).1 (resizeDims w h bound).2 ≤ bound ∧
    (resizeDims w h bound).1 * h ≤ w * (resizeDims w h bound).2 + max w h ∧
    w * (resizeDims w h bound).2 ≤ (resizeDims w h bound).1 * h + max w h ∧
    (max w h ≤ bound → resizeDims w h bound = (w, h)) := by
  by_cases h1 : h < w
  · by_cases h2 : bound < w
    · have hw : 0 < w := Nat.lt_of_le_of_lt (Nat.zero_le bound) h2
      have hdm : w * (h * bound / w) + h * bound % w = h * bound :=
        Nat.div_add_mod (h * bound) w
      have hr : h * bound % w < w := Nat.mod_lt _ hw
      have hqb : h * bound / w ≤ bound := by
        have hle : h * bound ≤ w * bound :=
          Nat.mul_le_mul_right bound (Nat.le_of_lt h1)
        have hq2 : h * bound / w ≤ w * bound / w := Nat.div_le_div_right hle
        rwa [Nat.mul_div_cancel_left bound hw] at hq2
      simp only [resizeDims, if_pos h1, if_pos h2]
      refine ⟨max_le le_rfl hqb, ?_, ?_, ?_⟩
      · calc bound * h
            = h * bound := Nat.mul_comm bound h
          _ = w * (h * bound / w) + h * bound % w := hdm.symm
          _ ≤ w * (h * bound / w) + max w h :=
            Nat.add_le_add_left
              (Nat.le_trans (Nat.le_of_lt hr) (le_max_left w h)) _
      · calc w * (h * bound / w)
            ≤ w * (h * bound / w) + h * bound % w := Nat.le_add_right _ _
          _ = h * bound := hdm
          _ = bound * h := Nat.mul_comm h bound
          _ ≤ bound * h + max w h := Nat.le_add_right _ _
      · intro hc
        exact absurd (Nat.le_trans (le_max_left w h) hc) (not_le.mpr h2)
    · simp only [resizeDims, if_pos h1, if_neg h2]
      refine ⟨?_, Nat.le_add_right _ _, Nat.le_add_right _ _,
        fun _ => trivial⟩
      rw [max_eq_left (Nat.le_of_lt h1)]
      exact not_lt.mp h2
  · by_cases h2 : bound < h
    · have hh : 0 < h := Nat.lt_of_le_of_lt (Nat.zero_le bound) h2
      have hdm : h * (w * bound / h) + w * bound % h = w * bound :=
        Nat.div_add_mod (w * bound) h
      have hr : w * bound % h < h := Nat.mod_lt _ hh
      have hqb : w * bound / h ≤ bound := by
        have hle : w * bound ≤ h * bound :=
          Nat.mul_le_mul_right bound (not_lt.mp h1)
        have hq2 : w * bound / h ≤ h * bound / h := Nat.div_le_div_right hle
        rwa [Nat.mul_div_cancel_left bound hh] at hq2
      simp only [resizeDims, if_neg h1, if_pos h2]
      refine ⟨max_le hqb le_rfl, ?_, ?_, ?_⟩
      · calc (w * bound / h) * h
            = h * (w * bound / h) := Nat.mul_comm _ _
          _ ≤ h * (w * bound / h) + w * bound % h := Nat.le_add_right _ _
          _ = w * bound := hdm
          _ ≤ w * bound + max w h := Nat.le_add_right _ _
      · calc w * bound
            = h * (w * bound / h) + w * bound % h := hdm.symm
          _ ≤ h * (w * bound / h) + max w h :=
            Nat.add_le_add_left
              (Nat.le_trans (Nat.le_of_lt hr) (le_max_right w h)) _
          _ = (w * bound / h) * h + max w h := by rw [Nat.mul_comm h]
      · intro hc
        exact absurd (Nat.le_trans (le_max_right w h) hc) (not_le.mpr h2)
    · simp only [resizeDims, if_neg h1, if_neg h2]
      refine ⟨?_, Nat.le_add_right _ _, Nat.le_add_right _ _,
        fun _ => trivial⟩
      rw [max_eq_right (not_lt.mp h1)]
      exact not_lt.mp h2

/-- Witness for C4: a 2048 by 1536 image is scaled down within the default
bound of 1024, and an 800 by 600 image already within the bound is returned
unchanged. -/
theorem resize_bounds_aspect_no_upscale_witness :
    max (resizeDims 2048 1536 1024).1 (resizeDims 2048 1536 1024).2
      ≤ 1024 ∧
    resizeDims 800 600 1024 = (800, 600) :=
  ⟨(resize_bounds_aspect_no_upscale 2048 1536 1024).1,
    (resize_bounds_aspect_no_upscale 800 600 1024).2.2.2 (by decide)⟩

/-- A concrete remote transformation used by the witnesses. -/
def demoWatercolor : String → String := fun s => "w:" ++ s

/-- A concrete camera-state model reached after opening the studio. -/
def camModel : AppModel := ⟨AppState.camera, none, none, none, false⟩

/-- A concrete processing-state model reached after capturing "p". -/
def procModel : AppModel :=
  ⟨AppState.processing, some "p", none, none, false⟩

/-- A concrete preview-state model reached after the transform succeeds. -/
def previewModel : AppModel :=
  ⟨AppState.preview, some "p", some (demoWatercolor "p"), none, false⟩

theorem previewModel_reachable : Reachable demoWatercolor previewModel :=
  @Reachable.step demoWatercolor procModel previewModel
    AppEvent.transformSuccess
    (@Reachable.step demoWatercolor camModel procModel (AppEvent.capture "p")
      (@Reachable.step demoWatercolor initModel camModel AppEvent.openStudio
        Reachable.init (by decide))
      (by decide))
    (by decide)

/-- Claim C5: invoking reset from any reachable previewing state clears both
images, leaves the error clear (it was already clear, since reset itself
does not touch the error field but every reachable previewing state has a
clear error), and moves to the capturing state. -/
theorem reset_from_previewing (watercolor : String → String)
    (s s2 : AppModel) (hr : Reachable watercolor s)
    (hs : s.state = AppState.preview)
    (hstep : appStep watercolor s AppEvent.reset = some s2) :
    s2.originalImage = none ∧ s2.transformedImage = none ∧
    s2.error = none ∧ s2.state = AppState.camera := by
  obtain ⟨-, -, h3⟩ := reachable_inv hr
  simp only [appStep, hs, if_pos] at hstep
  injection hstep with h
  subst h
  exact ⟨rfl, rfl, (h3 hs).1, rfl⟩

/-- Witness for C5: reset on a concrete reachable preview state produces the
camera state with no images and no error. -/
theorem reset_from_previewing_witness :
    camModel.originalImage = none ∧ camModel.transformedImage = none ∧
    camModel.error = none ∧ camModel.state = AppState.camera :=
  reset_from_previewing demoWatercolor previewModel camModel
    previewModel_reachable rfl (by decide)

/-- Claim C6: in every reachable controller state, a transformed image is
present only in the previewing state, and it is the transformation of the
most recently captured image (the one held in `originalImage`, which each
capture overwrites). -/
theorem transformed_image_invariant (watercolor : String → String)
    (s : AppModel) (t : String) (hr : Reachable watercolor s)
    (ht : s.transformedImage = some t) :
    s.state = AppState.preview ∧
    ∃ img, s.originalImage = some img ∧ t = watercolor img := by
  obtain ⟨-, h2, h3⟩ := reachable_inv hr
  by_cases hp : s.state = AppState.preview
  · refine ⟨hp, ?_⟩
    obtain ⟨-, ho, htr⟩ := h3 hp
    cases hoi : s.originalImage with
    | none => exact absurd hoi ho
    | some img =>
      refine ⟨img, rfl, ?_⟩
      rw [htr, hoi] at ht
      simpa using ht.symm
  · rw [h2 hp] at ht
    exact absurd ht (by simp)

/-- Witness for C6: the concrete reachable preview state holds the
transformation of its captured image. -/
theorem transformed_image_invariant_witness :
    previewModel.state = AppState.preview ∧
    ∃ img, previewModel.originalImage = some img ∧
      demoWatercolor "p" = demoWatercolor img :=
  transformed_image_invariant demoWatercolor previewModel
    (demoWatercolor "p") previewModel_reachable rfl

/-- Claim C7: when the in-flight transform fails with a nonempty user-facing
message, the controller keeps the captured image (and every other stored
image) unchanged, records exactly that message as the error, and returns to
the capturing state. -/
theorem transform_failure_frame_effect (watercolor : String → String)
    (s s2 : AppModel) (msg : String) (hmsg : msg.isEmpty = false)
    (hstep : appStep watercolor s (AppEvent.transformFailure msg) = some s2) :
    s2.originalImage = s.originalImage ∧
    s2.transformedImage = s.transformedImage ∧
    s2.error = some msg ∧ s2.state = AppState.camera := by
  simp only [appStep] at hstep
  split at hstep
  · injection hstep with h
    subst h
    refine ⟨rfl, rfl, ?_, rfl⟩
    simp [hmsg]
  · exact absurd hstep (by simp)

/-- Witness for C7: a concrete failure with message "boom" in the concrete
processing state keeps the captured image, records "boom", and returns to
the camera. -/
theorem transform_failure_frame_effect_witness :
    (AppModel.mk AppState.camera (some "p") none (some "boom")
        false).originalImage = procModel.originalImage ∧
    (AppModel.mk AppState.camera (some "p") none (some "boom")
        false).transformedImage = procModel.transformedImage ∧
    (AppModel.mk AppState.camera (some "p") none (some "boom")
        false).error = some "boom" ∧
    (AppModel.mk AppState.camera (some "p") none (some "boom")
        false).state = AppState.camera :=
  transform_failure_frame_effect demoWatercolor procModel
    (AppModel.mk AppState.camera (some "p") none (some "boom") false)
    "boom" (by decide) (by decide)

/-- Claim C8 (code bug, evaluated at the failing sequence): the cleanup that
should tear the session down at unmount is a stale closure. The effect (deps
`[isActive, facingMode]`) registers the `stopStream` of the render at which
it ran, capturing the committed stream from before that run's acquisition —
`setStream(newStream)` re-renders but never re-runs the effect. At unmount
that cleanup therefore holds null (or a prior, already-stopped stream) and
stops nothing: a mounted-then-unmounted camera leaves its session live, and
a routine remount (the app unmounts the camera on every capture) leaves two
hardware sessions live at once. -/
theorem camera_unmount_leaks_session :
    (runCamOps [CamOp.activate true, CamOp.unmount] initCam).live = [0] ∧
    (runCamOps [CamOp.activate true, CamOp.unmount, CamOp.activate true]
        initCam).live = [1, 0] ∧
    2 ≤ (runCamOps [CamOp.activate true, CamOp.unmount, CamOp.activate true]
        initCam).live.length := by
  exact ⟨rfl, rfl, by decide⟩

/-- Claim C9: a still-frame capture with the front-facing mode active is the
horizontal mirror of the raw sensor frame, rendered at the video's native
dimensions; a capture with the back-facing mode is the raw frame itself. -/
theorem capture_front_facing_mirrors (v : Video) :
    capturePhoto FacingMode.user v = mirrorX (rawFrameImage v) ∧
    capturePhoto FacingMode.environment v = rawFrameImage v ∧
    (capturePhoto FacingMode.user v).width = v.videoWidth ∧
    (capturePhoto FacingMode.user v).height = v.videoHeight := by
  refine ⟨?_, ?_, rfl, rfl⟩
  · simp [capturePhoto, mirrorX, rawFrameImage]
  · simp [capturePhoto, rawFrameImage]

end Aquarelle
